import Mathlib

/-!
# engine.js : player controller, orbital camera, draw sequence and cube mesh

A shallow embedding of `src/engine.js`.

* JavaScript numbers are modelled by an arbitrary linearly ordered field `K`
  (exact arithmetic); `K := ℚ` gives an executable model, `K := ℝ` is used where
  the claim speaks about `sin`, `cos` and `pi`.
* `Math.sin`, `Math.cos` and `Math.PI` are host functions; they are passed to the
  embedding in a `JSMath` record.
* The global `Game` object is an explicit state value; `update` and the mouse
  listener are state transformers.
* An entry of `Game.input` is `undefined`, `false` or `true`: `Option Bool`.
* WebGL calls are recorded as a list of commands.
-/

namespace Engine

/-! ## Data model -/

/-- A three element number array such as `Game.player.pos` (`x = a[0]`, `y = a[1]`, `z = a[2]`). -/
structure Vec3 (K : Type) where
  x : K
  y : K
  z : K
deriving DecidableEq

/-- The object `Game.player`. -/
structure Player (K : Type) where
  pos : Vec3 K
  rot : Vec3 K
  hp : K
  stamina : K
  speed : K
  isRunning : Option Bool

/-- The object `Game.camera`. -/
structure Camera (K : Type) where
  distance : K
  pitch : K
  yaw : K

/-- The global `Game` (the field `objects` is never read or written). -/
structure Game (K : Type) where
  player : Player K
  input : String → Option Bool
  camera : Camera K

/-- The host functions `Math.sin`, `Math.cos` and the constant `Math.PI`. -/
structure JSMath (K : Type) where
  sin : K → K
  cos : K → K
  PI : K

/-- JavaScript truthiness of an entry of `Game.input`. -/
def truthy : Option Bool → Bool
  | some true => true
  | _ => false

/-- The JavaScript expression `a && b` for an input entry `a` and a boolean `b`:
the value is `a` itself when `a` is falsy, `b` otherwise. -/
def jsAnd (a : Option Bool) (b : Bool) : Option Bool :=
  if truthy a then some b else a

variable {K : Type} [LinearOrderedField K]

/-- The literal `const Game = { ... }` (lines 35-47), with an empty input map. -/
def Game.initial : Game K :=
  { player :=
      { pos := ⟨0, 1, 5⟩
        rot := ⟨0, 0, 0⟩
        hp := 100
        stamina := 100
        speed := 0.1
        isRunning := some false }
    input := fun _ => none
    camera := { distance := 10, pitch := 0.5, yaw := 0 } }

/-! ## `update` (lines 94-116) -/

/-- The value assigned to `p.isRunning` on line 98. -/
def update.isRunning (g : Game K) : Option Bool :=
  jsAnd (g.input "ShiftLeft") (decide (g.player.stamina > 0))

/-- The constant `currentSpeed` of line 99. -/
def update.currentSpeed (g : Game K) : K :=
  if truthy (update.isRunning g) then g.player.speed * 2 else g.player.speed

/-- The stamina after lines 100-101. -/
def update.stamina (g : Game K) : K :=
  if truthy (update.isRunning g) then g.player.stamina - 0.5
  else if g.player.stamina < 100 then g.player.stamina + 0.2
  else g.player.stamina

/-- The position after lines 104-111. -/
def update.pos (M : JSMath K) (g : Game K) : Vec3 K :=
  let currentSpeed := update.currentSpeed g
  let p1 : Vec3 K :=
    if truthy (g.input "KeyW") then
      { g.player.pos with
        x := g.player.pos.x - M.sin g.camera.yaw * currentSpeed
        z := g.player.pos.z - M.cos g.camera.yaw * currentSpeed }
    else g.player.pos
  if truthy (g.input "KeyS") then
    { p1 with
      x := p1.x + M.sin g.camera.yaw * currentSpeed
      z := p1.z + M.cos g.camera.yaw * currentSpeed }
  else p1

/-- One call of `update()`. The two writes to the HUD bars (lines 114-115) copy
`p.hp` and `p.stamina` to the DOM and do not change `Game`. -/
def update (M : JSMath K) (g : Game K) : Game K :=
  { g with
    player :=
      { g.player with
        isRunning := update.isRunning g
        stamina := update.stamina g
        pos := update.pos M g } }

/-- The game after one `update()` per input snapshot, each snapshot being written
to `Game.input` before its tick. -/
def runTicks (M : JSMath K) (g : Game K) : List (String → Option Bool) → Game K
  | [] => g
  | i :: is => runTicks M (update M { g with input := i }) is

/-- The snapshot in which exactly the keys of `ks` are pressed and every other key is released. -/
def pressed (ks : List String) : String → Option Bool :=
  fun k => some (decide (k ∈ ks))

/-- A rational instance of the host functions, for evaluating the model. -/
def ratMath : JSMath ℚ := ⟨fun _ => 0, fun _ => 1, 3⟩

/-- The host functions as IEEE doubles evaluate them at the two yaws 0 and `Math.PI / 2`:
`Math.PI` is the double 884279719003555 / 2^48, `Math.sin` gives 0 and 1, `Math.cos` gives 1
and 4967757600021511 / 2^106 (printed 6.123233995736766e-17). No statement applies the
functions at another argument; there they take their value at `Math.PI / 2`. -/
def doubleMath : JSMath ℚ :=
  { sin := fun x => if x = 0 then 0 else 1
    cos := fun x => if x = 0 then 1 else 4967757600021511 / 81129638414606681695789005144064
    PI := 884279719003555 / 281474976710656 }

/-- The game with the player at (0, 1, 0), camera yaw `Math.PI / 2` and only the forward key
pressed; every other field is as in the initial game. -/
def halfPiGame : Game ℚ :=
  { player := { (Game.initial : Game ℚ).player with pos := ⟨0, 1, 0⟩ }
    input := pressed ["KeyW"]
    camera := { distance := 10, pitch := 0.5, yaw := doubleMath.PI / 2 } }

/-! ## Input listeners (lines 73-80) -/

/-- The `keydown` listener: `Game.input[e.code] = true`. -/
def onKeyDown (g : Game K) (code : String) : Game K :=
  { g with input := fun k => if k = code then some true else g.input k }

/-- The `keyup` listener: `Game.input[e.code] = false`. -/
def onKeyUp (g : Game K) (code : String) : Game K :=
  { g with input := fun k => if k = code then some false else g.input k }

/-- A `mousemove` event: whether `document.pointerLockElement === canvas` holds when it
is delivered, and its `movementX`, `movementY`. -/
structure MouseMove (K : Type) where
  locked : Bool
  movementX : K
  movementY : K

/-- The `mousemove` listener (lines 75-80). -/
def onMouseMove (g : Game K) (e : MouseMove K) : Game K :=
  if e.locked then
    { g with
      camera :=
        { g.camera with
          yaw := g.camera.yaw + e.movementX * 0.005
          pitch := g.camera.pitch + e.movementY * 0.005 } }
  else g

/-- The game after a sequence of `mousemove` events. -/
def mouseMoves (g : Game K) (es : List (MouseMove K)) : Game K :=
  es.foldl onMouseMove g

/-! ## Matrices

`mat4` is the matrix library the page loads next to `engine.js`; it is not part of the
sources. A `mat4` value is a 4 by 4 matrix acting on column vectors. -/

/-- A `mat4` value. -/
abbrev Mat4 (K : Type) := Matrix (Fin 4) (Fin 4) K

/-- The two `mat4` functions that `drawScene` only passes values through:
`mat4.perspective(out, fovy, aspect, near, far)` and `mat4.lookAt(out, eye, center, up)`. -/
structure Mat4Host (K : Type) where
  perspective : K → K → K → K → Mat4 K
  lookAt : Vec3 K → Vec3 K → Vec3 K → Mat4 K

/-- Modelled from the spec: `mat4.create()` of the matrix library (not under src/),
the identity matrix. -/
def mat4.create : Mat4 K := 1

/-- Modelled from the spec: `mat4.translate(out, a, v)` of the matrix library (not under
src/), "translate(identity, objectPosition) composed onto the view matrix": `a` times the
translation by `v`. -/
def mat4.translate (a : Mat4 K) (v : Vec3 K) : Mat4 K :=
  a * !![1, 0, 0, v.x; 0, 1, 0, v.y; 0, 0, 1, v.z; 0, 0, 0, 1]

/-- Modelled from the spec: `mat4.scale(out, a, v)` of the matrix library (not under
src/), "then scaled by objectScale": `a` times the diagonal scaling by `v`. -/
def mat4.scale (a : Mat4 K) (v : Vec3 K) : Mat4 K :=
  a * !![v.x, 0, 0, 0; 0, v.y, 0, 0; 0, 0, v.z, 0; 0, 0, 0, 1]

/-- Modelled from the spec: `mat4.invert(out, a)` of the matrix library (not under src/),
"inverse of the model-view matrix", with "inversion failure (singular matrix)": the
result is `none` (the library returns `null` and leaves `out` as it was) when the
determinant is zero. -/
def mat4.invert (a : Mat4 K) : Option (Mat4 K) :=
  if a.det = 0 then none else some (a.det⁻¹ • a.adjugate)

/-- Modelled from the spec: `mat4.transpose(out, a)` of the matrix library (not under
src/), "transposed". -/
def mat4.transpose (a : Mat4 K) : Mat4 K := a.transpose

/-! ## WebGL commands -/

/-- The uniform locations of `programInfo.uniformLocations`. -/
inductive Uniform where
  | projectionMatrix
  | modelViewMatrix
  | normalMatrix
deriving DecidableEq

/-- The attribute locations of `programInfo.attribLocations`. -/
inductive Attrib where
  | vertexPosition
  | normal
deriving DecidableEq

/-- The buffers returned by `initBuffers`. -/
inductive Buffer where
  | position
  | normal
  | indices
deriving DecidableEq

/-- The calls on `gl` made by `drawScene` and `drawObject`. -/
inductive GLCmd (K : Type) where
  | clearColor (r g b a : K)
  | clearDepth (d : K)
  | enableDepthTest
  | depthFuncLEqual
  | clearColorAndDepth
  | useProgram
  | uniformMatrix4fv (u : Uniform) (m : Mat4 K)
  | bindArrayBuffer (b : Buffer)
  | vertexAttribPointer (a : Attrib) (size : ℕ)
  | enableVertexAttribArray (a : Attrib)
  | bindElementArrayBuffer (b : Buffer)
  | drawElementsTriangles (count : ℕ)

/-! ## `drawObject` (lines 145-169) -/

/-- The matrix `modelMat` after lines 146-148. -/
def drawObject.modelMat (pos scale : Vec3 K) (viewMat : Mat4 K) : Mat4 K :=
  mat4.scale (mat4.translate viewMat pos) scale

/-- The matrix `normalMatrix` after lines 150-152: it starts as `mat4.create()`, is
overwritten by the inverse of `modelMat` when there is one, and is transposed. -/
def drawObject.normalMatrix (pos scale : Vec3 K) (viewMat : Mat4 K) : Mat4 K :=
  mat4.transpose ((mat4.invert (drawObject.modelMat pos scale viewMat)).getD mat4.create)

/-- The commands issued by one call of `drawObject`. -/
def drawObject (pos scale : Vec3 K) (viewMat projMat : Mat4 K) : List (GLCmd K) :=
  [ .useProgram,
    .uniformMatrix4fv .projectionMatrix projMat,
    .uniformMatrix4fv .modelViewMatrix (drawObject.modelMat pos scale viewMat),
    .uniformMatrix4fv .normalMatrix (drawObject.normalMatrix pos scale viewMat),
    .bindArrayBuffer .position,
    .vertexAttribPointer .vertexPosition 3,
    .enableVertexAttribArray .vertexPosition,
    .bindArrayBuffer .normal,
    .vertexAttribPointer .normal 3,
    .enableVertexAttribArray .normal,
    .bindElementArrayBuffer .indices,
    .drawElementsTriangles 36 ]

/-! ## `drawScene` (lines 119-143) and `render` (lines 85-89) -/

/-- The point `[camX, camY, camZ]` of lines 132-134. -/
def drawScene.eye (M : JSMath K) (g : Game K) : Vec3 K :=
  { x := g.player.pos.x + g.camera.distance * M.sin g.camera.yaw * M.cos g.camera.pitch
    y := g.player.pos.y + g.camera.distance * M.sin g.camera.pitch
    z := g.player.pos.z + g.camera.distance * M.cos g.camera.yaw * M.cos g.camera.pitch }

/-- The arguments `eye`, `center`, `up` of the call of `mat4.lookAt` on line 136. -/
def drawScene.lookAtArgs (M : JSMath K) (g : Game K) : Vec3 K × Vec3 K × Vec3 K :=
  (drawScene.eye M g, g.player.pos, ⟨0, 1, 0⟩)

/-- The matrix `modelViewMatrix` after line 136. -/
def drawScene.modelViewMatrix (M : JSMath K) (L : Mat4Host K) (g : Game K) : Mat4 K :=
  L.lookAt (drawScene.lookAtArgs M g).1 (drawScene.lookAtArgs M g).2.1
    (drawScene.lookAtArgs M g).2.2

/-- The matrix `projectionMatrix` after line 127; `aspect` is
`gl.canvas.clientWidth / gl.canvas.clientHeight`. -/
def drawScene.projectionMatrix (M : JSMath K) (L : Mat4Host K) (aspect : K) : Mat4 K :=
  L.perspective (45 * M.PI / 180) aspect 0.1 100.0

/-- The commands issued by one call of `drawScene`. -/
def drawScene (M : JSMath K) (L : Mat4Host K) (aspect : K) (g : Game K) : List (GLCmd K) :=
  [ .clearColor 0.1 0.1 0.15 1.0,
    .clearDepth 1.0,
    .enableDepthTest,
    .depthFuncLEqual,
    .clearColorAndDepth ]
  ++ drawObject ⟨0, 0, 0⟩ ⟨50, 0.1, 50⟩
      (drawScene.modelViewMatrix M L g) (drawScene.projectionMatrix M L aspect)
  ++ drawObject g.player.pos ⟨0.5, 1, 0.5⟩
      (drawScene.modelViewMatrix M L g) (drawScene.projectionMatrix M L aspect)

/-- One frame: `update()`, then `drawScene(...)`; the result is the new game and the
commands issued. The scheduling of the next frame is left to the caller. -/
def render (M : JSMath K) (L : Mat4Host K) (aspect : K) (g : Game K) :
    Game K × List (GLCmd K) :=
  (update M g, drawScene M L aspect (update M g))

/-- The indexed draw calls of a command list, each with its count and the model-view
uniform in effect when it is issued (`none` before the first upload). -/
def drawCalls : Option (Mat4 K) → List (GLCmd K) → List (Option (Mat4 K) × ℕ)
  | _, [] => []
  | _, .uniformMatrix4fv .modelViewMatrix m :: cs => drawCalls (some m) cs
  | mv, .drawElementsTriangles n :: cs => (mv, n) :: drawCalls mv cs
  | mv, _ :: cs => drawCalls mv cs

/-! ## `initBuffers` (lines 172-190) -/

/-- The array `positions` of line 173. -/
def initBuffers.positions : List ℤ :=
  [-1, -1, 1, 1, -1, 1, 1, 1, 1, -1, 1, 1, -1, -1, -1, -1, 1, -1, 1, 1, -1, 1, -1, -1,
   -1, 1, -1, -1, 1, 1, 1, 1, 1, 1, 1, -1, -1, -1, -1, 1, -1, -1, 1, -1, 1, -1, -1, 1,
   1, -1, -1, 1, 1, -1, 1, 1, 1, 1, -1, 1, -1, -1, -1, -1, -1, 1, -1, 1, 1, -1, 1, -1]

/-- The array `normals` of line 174. -/
def initBuffers.normals : List ℤ :=
  [0, 0, 1, 0, 0, 1, 0, 0, 1, 0, 0, 1, 0, 0, -1, 0, 0, -1, 0, 0, -1, 0, 0, -1,
   0, 1, 0, 0, 1, 0, 0, 1, 0, 0, 1, 0, 0, -1, 0, 0, -1, 0, 0, -1, 0, 0, -1, 0,
   1, 0, 0, 1, 0, 0, 1, 0, 0, 1, 0, 0, -1, 0, 0, -1, 0, 0, -1, 0, 0, -1, 0, 0]

/-- The array `indices` of line 175. -/
def initBuffers.indices : List ℕ :=
  [0, 1, 2, 0, 2, 3, 4, 5, 6, 4, 6, 7, 8, 9, 10, 8, 10, 11, 12, 13, 14, 12, 14, 15,
   16, 17, 18, 16, 18, 19, 20, 21, 22, 20, 22, 23]

/-- The attribute of vertex `i` read from a buffer with `vertexAttribPointer(loc, 3,
gl.FLOAT, false, 0, 0)`: three consecutive components starting at `3 * i`. -/
def attribAt (buf : List ℤ) (i : ℕ) : Option (Vec3 ℤ) :=
  match buf[3 * i]?, buf[3 * i + 1]?, buf[3 * i + 2]? with
  | some x, some y, some z => some ⟨x, y, z⟩
  | _, _, _ => none

/-- The triangles drawn by `drawElements(gl.TRIANGLES, ...)`: consecutive index triples. -/
def triangles : List ℕ → List (ℕ × ℕ × ℕ)
  | i0 :: i1 :: i2 :: rest => (i0, i1, i2) :: triangles rest
  | _ => []

/-- Scalar product. -/
def Vec3.dot (a b : Vec3 ℤ) : ℤ := a.x * b.x + a.y * b.y + a.z * b.z

/-- Difference of two points. -/
def Vec3.sub (a b : Vec3 ℤ) : Vec3 ℤ := ⟨a.x - b.x, a.y - b.y, a.z - b.z⟩

/-- Cross product. -/
def Vec3.cross (a b : Vec3 ℤ) : Vec3 ℤ :=
  ⟨a.y * b.z - a.z * b.y, a.z * b.x - a.x * b.z, a.x * b.y - a.y * b.x⟩

/-- Multiple of a vector. -/
def Vec3.smul (k : ℤ) (a : Vec3 ℤ) : Vec3 ℤ := ⟨k * a.x, k * a.y, k * a.z⟩

/-- The six axis-aligned unit vectors. -/
def axisUnits : List (Vec3 ℤ) :=
  [⟨1, 0, 0⟩, ⟨-1, 0, 0⟩, ⟨0, 1, 0⟩, ⟨0, -1, 0⟩, ⟨0, 0, 1⟩, ⟨0, 0, -1⟩]

/-- A triangle of the mesh is consistent with respect to the multiple `k`: its three
vertices exist, carry one normal `n` that is an axis-aligned unit vector, lie on the face
`n . position = 1`, and its winding cross product is `k` times `n`. -/
def triangleOk (k : ℤ) (t : ℕ × ℕ × ℕ) : Prop :=
  ∃ v0 v1 v2 n : Vec3 ℤ,
    attribAt initBuffers.positions t.1 = some v0 ∧
    attribAt initBuffers.positions t.2.1 = some v1 ∧
    attribAt initBuffers.positions t.2.2 = some v2 ∧
    attribAt initBuffers.normals t.1 = some n ∧
    attribAt initBuffers.normals t.2.1 = some n ∧
    attribAt initBuffers.normals t.2.2 = some n ∧
    n ∈ axisUnits ∧
    Vec3.dot n v0 = 1 ∧ Vec3.dot n v1 = 1 ∧ Vec3.dot n v2 = 1 ∧
    Vec3.cross (Vec3.sub v1 v0) (Vec3.sub v2 v0) = Vec3.smul k n



/-! ## Evaluation lemmas for `update` -/

section lemmas

variable (M : JSMath K) (g : Game K)

theorem truthy_iff (a : Option Bool) : truthy a = true ↔ a = some true := by
  cases a with
  | none => simp [truthy]
  | some b => cases b <;> simp [truthy]

theorem truthy_isRunning_iff :
    truthy (update.isRunning g) = true ↔ g.input "ShiftLeft" = some true ∧ 0 < g.player.stamina := by
  unfold update.isRunning jsAnd
  cases h : g.input "ShiftLeft" with
  | none => simp [truthy]
  | some b =>
    cases b
    · simp [truthy]
    · by_cases hs : 0 < g.player.stamina <;> simp [truthy, hs]

theorem isRunning_eq_true_iff :
    update.isRunning g = some true ↔ g.input "ShiftLeft" = some true ∧ 0 < g.player.stamina := by
  rw [← truthy_iff, truthy_isRunning_iff]

@[simp]
theorem update_input : (update M g).input = g.input := rfl

@[simp]
theorem update_camera : (update M g).camera = g.camera := rfl

@[simp]
theorem update_speed : (update M g).player.speed = g.player.speed := rfl

@[simp]
theorem update_stamina : (update M g).player.stamina = update.stamina g := rfl

@[simp]
theorem update_pos : (update M g).player.pos = update.pos M g := rfl

@[simp]
theorem update_isRunning : (update M g).player.isRunning = update.isRunning g := rfl

theorem runTicks_append (is js : List (String → Option Bool)) :
    runTicks M g (is ++ js) = runTicks M (runTicks M g is) js := by
  induction is generalizing g with
  | nil => rfl
  | cons i is ih => simp [runTicks, ih]

theorem stamina_eq (g : Game K) :
    update.stamina g =
      if g.input "ShiftLeft" = some true ∧ 0 < g.player.stamina then g.player.stamina - 0.5
      else if g.player.stamina < 100 then g.player.stamina + 0.2
      else g.player.stamina := by
  unfold update.stamina
  by_cases hr : truthy (update.isRunning g) = true
  · rw [if_pos hr, if_pos ((truthy_isRunning_iff g).1 hr)]
  · rw [if_neg hr, if_neg (fun h => hr ((truthy_isRunning_iff g).2 h))]

theorem runTicks_shift (n : ℕ) :
    ∀ g : Game K, (n : K) * 0.5 ≤ g.player.stamina →
      (runTicks M g (List.replicate n (pressed ["ShiftLeft"]))).player.stamina
        = g.player.stamina - n * 0.5 := by
  induction n with
  | zero => intro g _; simp [runTicks]
  | succ n ih =>
    intro g h
    have hpos : 0 < g.player.stamina := by
      have : (0 : K) ≤ n := Nat.cast_nonneg n
      push_cast at h
      norm_num at h
      linarith
    have hst : (update M { g with input := pressed ["ShiftLeft"] }).player.stamina
        = g.player.stamina - 0.5 := by
      rw [update_stamina, stamina_eq]
      simp [pressed, hpos]
    rw [List.replicate_succ, runTicks, ih _ (by rw [hst]; push_cast at h; linarith), hst]
    push_cast
    ring

end lemmas

/-! ## Stamina (C1) -/

/-- C1: update() breaks the claim. With only the run key held for 202 ticks from the initial state the
stamina is -0.3 (200 ticks drain it to 0, tick 201 regenerates to 0.2, tick 202 runs again),
and after one running tick followed by three idle ticks it is 100.1; both values lie outside
the range 0 to 100. -/
theorem stamina_leaves_range :
    (runTicks ratMath Game.initial
        (List.replicate 202 (pressed ["ShiftLeft"]))).player.stamina = -0.3 ∧
    ¬ (0 ≤ (runTicks ratMath Game.initial
        (List.replicate 202 (pressed ["ShiftLeft"]))).player.stamina) ∧
    (runTicks ratMath Game.initial
        (pressed ["ShiftLeft"] :: List.replicate 3 (pressed []))).player.stamina = 100.1 ∧
    ¬ ((runTicks ratMath Game.initial
        (pressed ["ShiftLeft"] :: List.replicate 3 (pressed []))).player.stamina ≤ 100) := by
  have h200 := runTicks_shift ratMath 200 (Game.initial : Game ℚ) (by norm_num [Game.initial])
  have h1 : (runTicks ratMath Game.initial
      (List.replicate 202 (pressed ["ShiftLeft"]))).player.stamina = -0.3 := by
    rw [show (202 : ℕ) = 200 + 2 from rfl, List.replicate_add, runTicks_append]
    generalize runTicks ratMath Game.initial (List.replicate 200 (pressed ["ShiftLeft"])) = g
      at h200 ⊢
    simp only [List.replicate, runTicks, update_stamina, stamina_eq, h200, update_input]
    norm_num [pressed, Game.initial]
  have h2 : (runTicks ratMath Game.initial
      (pressed ["ShiftLeft"] :: List.replicate 3 (pressed []))).player.stamina = 100.1 := by
    simp only [List.replicate, runTicks, update_stamina, stamina_eq, update_input]
    norm_num [pressed, Game.initial]
  refine ⟨h1, ?_, h2, ?_⟩
  · rw [h1]; norm_num
  · rw [h2]; norm_num

/-! ## Running flag (C2) -/

/-- C2: after one call of update() the flag isRunning is true if and only if ShiftLeft is
pressed in the input and the stamina before the tick is strictly positive. -/
theorem isRunning_true_iff (M : JSMath K) (g : Game K) :
    (update M g).player.isRunning = some true ↔
      g.input "ShiftLeft" = some true ∧ 0 < g.player.stamina := by
  rw [update_isRunning, isRunning_eq_true_iff]

/-! ## Movement and idle ticks (C3, C4, C5) -/

theorem currentSpeed_eq (g : Game K) :
    update.currentSpeed g =
      if g.input "ShiftLeft" = some true ∧ 0 < g.player.stamina then 2 * g.player.speed
      else g.player.speed := by
  unfold update.currentSpeed
  by_cases hr : truthy (update.isRunning g) = true
  · rw [if_pos hr, if_pos ((truthy_isRunning_iff g).1 hr), mul_comm]
  · rw [if_neg hr, if_neg (fun h => hr ((truthy_isRunning_iff g).2 h))]

theorem truthy_eq_false_of_ne {a : Option Bool} (h : a ≠ some true) : truthy a = false := by
  cases hb : truthy a with
  | false => rfl
  | true => exact absurd ((truthy_iff a).1 hb) h

/-- C3: with base speed > 0, a tick with the forward key (and not the backward key) pressed
moves the player by (-sin(yaw) e, 0, -cos(yaw) e), a tick with the backward key (and not the
forward key) pressed by (+sin(yaw) e, 0, +cos(yaw) e), where e is twice the base speed when
the run key is held and the stamina before the tick is positive, and the base speed
otherwise. -/
theorem update_forward_backward (M : JSMath K) (g : Game K) (hspeed : 0 < g.player.speed) :
    (g.input "KeyW" = some true ∧ g.input "KeyS" ≠ some true →
      (update M g).player.pos.x - g.player.pos.x
          = -(M.sin g.camera.yaw *
              (if g.input "ShiftLeft" = some true ∧ 0 < g.player.stamina
               then 2 * g.player.speed else g.player.speed)) ∧
      (update M g).player.pos.y - g.player.pos.y = 0 ∧
      (update M g).player.pos.z - g.player.pos.z
          = -(M.cos g.camera.yaw *
              (if g.input "ShiftLeft" = some true ∧ 0 < g.player.stamina
               then 2 * g.player.speed else g.player.speed))) ∧
    (g.input "KeyS" = some true ∧ g.input "KeyW" ≠ some true →
      (update M g).player.pos.x - g.player.pos.x
          = M.sin g.camera.yaw *
              (if g.input "ShiftLeft" = some true ∧ 0 < g.player.stamina
               then 2 * g.player.speed else g.player.speed) ∧
      (update M g).player.pos.y - g.player.pos.y = 0 ∧
      (update M g).player.pos.z - g.player.pos.z
          = M.cos g.camera.yaw *
              (if g.input "ShiftLeft" = some true ∧ 0 < g.player.stamina
               then 2 * g.player.speed else g.player.speed)) := by
  have _ := hspeed
  constructor
  · rintro ⟨hW, hS⟩
    simp only [update_pos, update.pos, (truthy_iff _).2 hW, truthy_eq_false_of_ne hS,
      currentSpeed_eq]
    refine ⟨?_, ?_, ?_⟩ <;> simp
  · rintro ⟨hS, hW⟩
    simp only [update_pos, update.pos, (truthy_iff _).2 hS, truthy_eq_false_of_ne hW,
      currentSpeed_eq]
    refine ⟨?_, ?_, ?_⟩ <;> simp

/-- Witness of C3: the initial game with the forward and the run key pressed moves by
(0, 0, -0.2) when sin(yaw) = 0 and cos(yaw) = 1. -/
theorem update_forward_backward_witness :
    (update ratMath { (Game.initial : Game ℚ) with input := pressed ["KeyW", "ShiftLeft"] }).player.pos.z
      - (5 : ℚ) = -0.2 := by
  have h := (update_forward_backward ratMath
    { (Game.initial : Game ℚ) with input := pressed ["KeyW", "ShiftLeft"] }
    (by norm_num [Game.initial])).1 ⟨by simp [pressed], by simp [pressed]⟩
  have hz := h.2.2
  norm_num [Game.initial, pressed, ratMath] at hz ⊢
  exact hz

/-- C4, as stated, fails: at yaw = Math.PI / 2 the host gives cos(yaw) = 6.1e-17, not 0, and a
forward tick of the player at (0, 1, 0) moves Z from 0 to -(cos(yaw) * 0.1), about -6.1e-18,
while X decreases by the effective speed 0.1 and Y stays. -/
theorem forward_changes_z_at_half_pi :
    (update doubleMath halfPiGame).player.pos
      = ⟨-0.1, 1, -(4967757600021511 / 81129638414606681695789005144064 * 0.1)⟩ ∧
    (update doubleMath halfPiGame).player.pos.z ≠ halfPiGame.player.pos.z := by
  have h : (update doubleMath halfPiGame).player.pos
      = ⟨-0.1, 1, -(4967757600021511 / 81129638414606681695789005144064 * 0.1)⟩ := by
    have hW : halfPiGame.input "KeyW" = some true := by simp [halfPiGame, pressed]
    have hS : halfPiGame.input "KeyS" ≠ some true := by simp [halfPiGame, pressed]
    have hR : ¬ (halfPiGame.input "ShiftLeft" = some true ∧ 0 < halfPiGame.player.stamina) := by
      simp [halfPiGame, pressed]
    rw [update_pos]
    simp only [update.pos, (truthy_iff _).2 hW, truthy_eq_false_of_ne hS, currentSpeed_eq,
      if_neg hR]
    norm_num [halfPiGame, doubleMath, Game.initial]
  refine ⟨h, ?_⟩
  rw [h]
  norm_num [halfPiGame]

/-- C4, amended: with base speed > 0 and only the forward key pressed among the movement
keys, for a host with sin(0) = 0, cos(0) = 1, sin(PI/2) = 1 and |cos(PI/2)| at most eps, a
tick with yaw = 0 decreases Z by the effective speed e and leaves X and Y unchanged, and a
tick with yaw = PI/2 decreases X by e, leaves Y unchanged and changes Z by -cos(PI/2) * e,
of absolute value at most eps * e; e is twice the base speed when the tick is running and
the base speed otherwise. -/
theorem update_forward_yaw_tolerance (M : JSMath K) (g : Game K) (hspeed : 0 < g.player.speed)
    (hW : g.input "KeyW" = some true) (hS : g.input "KeyS" ≠ some true)
    (hs0 : M.sin 0 = 0) (hc0 : M.cos 0 = 1) (hs1 : M.sin (M.PI / 2) = 1)
    (eps : K) (hc1 : |M.cos (M.PI / 2)| ≤ eps) :
    (g.camera.yaw = 0 →
      (update M g).player.pos
        = ⟨g.player.pos.x, g.player.pos.y, g.player.pos.z - update.currentSpeed g⟩) ∧
    (g.camera.yaw = M.PI / 2 →
      (update M g).player.pos.x = g.player.pos.x - update.currentSpeed g ∧
      (update M g).player.pos.y = g.player.pos.y ∧
      (update M g).player.pos.z
        = g.player.pos.z - M.cos (M.PI / 2) * update.currentSpeed g ∧
      |(update M g).player.pos.z - g.player.pos.z| ≤ eps * update.currentSpeed g) ∧
    update.currentSpeed g
      = (if g.input "ShiftLeft" = some true ∧ 0 < g.player.stamina then 2 * g.player.speed
         else g.player.speed) ∧
    0 < update.currentSpeed g := by
  have hpos : 0 < update.currentSpeed g := by
    rw [currentSpeed_eq]
    split <;> linarith
  have hp : (update M g).player.pos
      = ⟨g.player.pos.x - M.sin g.camera.yaw * update.currentSpeed g, g.player.pos.y,
         g.player.pos.z - M.cos g.camera.yaw * update.currentSpeed g⟩ := by
    simp [update.pos, (truthy_iff _).2 hW, truthy_eq_false_of_ne hS]
  refine ⟨?_, ?_, currentSpeed_eq g, hpos⟩
  · intro hy
    rw [hp, hy, hs0, hc0]
    simp
  · intro hy
    rw [hp, hy, hs1]
    refine ⟨by simp, rfl, rfl, ?_⟩
    have e : g.player.pos.z - M.cos (M.PI / 2) * update.currentSpeed g - g.player.pos.z
        = -(M.cos (M.PI / 2) * update.currentSpeed g) := by ring
    simp only [e, abs_neg, abs_mul, abs_of_pos hpos]
    exact mul_le_mul_of_nonneg_right hc1 hpos.le

/-- Witness of C4: the player at (0, 1, 0) with yaw = Math.PI / 2 under the double values of
the host, with eps = 1e-16: X decreases by the effective speed and Z moves by at most
1e-16 times the effective speed. -/
theorem update_forward_yaw_tolerance_witness :
    (update doubleMath halfPiGame).player.pos.x
      = halfPiGame.player.pos.x - update.currentSpeed halfPiGame ∧
    (update doubleMath halfPiGame).player.pos.y = halfPiGame.player.pos.y ∧
    (update doubleMath halfPiGame).player.pos.z
      = halfPiGame.player.pos.z
        - doubleMath.cos (doubleMath.PI / 2) * update.currentSpeed halfPiGame ∧
    |(update doubleMath halfPiGame).player.pos.z - halfPiGame.player.pos.z|
      ≤ (1 / 10 ^ 16) * update.currentSpeed halfPiGame :=
  (update_forward_yaw_tolerance doubleMath halfPiGame
    (by norm_num [halfPiGame, Game.initial])
    (by simp [halfPiGame, pressed])
    (by simp [halfPiGame, pressed])
    (by simp [doubleMath])
    (by simp [doubleMath])
    (by norm_num [doubleMath])
    (1 / 10 ^ 16)
    (by norm_num [doubleMath, abs_of_pos])).2.1 rfl

/-- C5: update() breaks the claim. Stamina 99.9 is reached from the initial state by one
running tick and two idle ticks; an idle tick from there gives 100.1, not
min(99.9 + 0.2, 100) = 100. -/
theorem idle_stamina_not_clamped :
    (update ratMath
        { player := { (Game.initial : Game ℚ).player with stamina := 99.9 }
          input := pressed []
          camera := Game.initial.camera }).player.stamina = 100.1 ∧
    (update ratMath
        { player := { (Game.initial : Game ℚ).player with stamina := 99.9 }
          input := pressed []
          camera := Game.initial.camera }).player.stamina ≠ min (99.9 + 0.2) 100 ∧
    (runTicks ratMath Game.initial
        [pressed ["ShiftLeft"], pressed [], pressed []]).player.stamina = 99.9 := by
  have h : (update ratMath
        { player := { (Game.initial : Game ℚ).player with stamina := 99.9 }
          input := pressed []
          camera := Game.initial.camera }).player.stamina = 100.1 := by
    rw [update_stamina, stamina_eq]
    norm_num [pressed]
  refine ⟨h, ?_, ?_⟩
  · rw [h]
    norm_num
  · simp only [runTicks, update_stamina, stamina_eq, update_input]
    norm_num [pressed, Game.initial]

/-! ## Camera (C6, C7) -/

/-- C6, as stated, fails: one pointer-locked mouse move with movementY = 400 takes the pitch
from 0.5 to 2.5, which is above pi/2. -/
theorem pitch_leaves_range :
    (mouseMoves (Game.initial : Game ℝ) [⟨true, 0, 400⟩]).camera.pitch = 2.5 ∧
    ¬ (-(Real.pi / 2) < (mouseMoves (Game.initial : Game ℝ) [⟨true, 0, 400⟩]).camera.pitch ∧
       (mouseMoves (Game.initial : Game ℝ) [⟨true, 0, 400⟩]).camera.pitch < Real.pi / 2) := by
  have h : (mouseMoves (Game.initial : Game ℝ) [⟨true, 0, 400⟩]).camera.pitch = 2.5 := by
    simp only [mouseMoves, List.foldl, onMouseMove, Game.initial, if_true]
    norm_num
  refine ⟨h, ?_⟩
  rw [h]
  intro hlt
  have := Real.pi_le_four
  norm_num at hlt
  linarith [hlt.2]

theorem onMouseMove_pitch (g : Game K) (e : MouseMove K) :
    (onMouseMove g e).camera.pitch
      = g.camera.pitch + (if e.locked then e.movementY else 0) * 0.005 := by
  unfold onMouseMove
  cases e.locked <;> simp

theorem onMouseMove_player (g : Game K) (e : MouseMove K) :
    (onMouseMove g e).player = g.player := by
  unfold onMouseMove
  cases e.locked <;> simp

theorem onMouseMove_distance (g : Game K) (e : MouseMove K) :
    (onMouseMove g e).camera.distance = g.camera.distance := by
  unfold onMouseMove
  cases e.locked <;> simp

/-- C6, amended: the pitch is not clamped. After every finite sequence of mouse-move events
from the initial camera, the pitch is 0.5 plus 0.005 times the sum of the movementY values
of the pointer-locked events, and this is the pitch drawScene uses for the eye point of the
look-at view (eye height = player height + distance * sin(pitch)). -/
theorem pitch_after_mouseMoves (M : JSMath K) (es : List (MouseMove K)) :
    (mouseMoves (Game.initial : Game K) es).camera.pitch
      = 0.5 + ((es.map (fun e => if e.locked then e.movementY else 0)).sum) * 0.005 ∧
    (drawScene.eye M (mouseMoves (Game.initial : Game K) es)).y
      = 1 + 10 * M.sin
          (0.5 + ((es.map (fun e => if e.locked then e.movementY else 0)).sum) * 0.005) := by
  have key : ∀ (es : List (MouseMove K)) (g : Game K),
      (mouseMoves g es).camera.pitch
        = g.camera.pitch + ((es.map (fun e => if e.locked then e.movementY else 0)).sum) * 0.005
      ∧ (mouseMoves g es).player = g.player
      ∧ (mouseMoves g es).camera.distance = g.camera.distance := by
    intro es
    induction es with
    | nil => intro g; simp [mouseMoves]
    | cons e es ih =>
      intro g
      have h := ih (onMouseMove g e)
      simp only [mouseMoves, List.foldl_cons] at h ⊢
      rw [h.1, h.2.1, h.2.2, onMouseMove_pitch, onMouseMove_player, onMouseMove_distance]
      refine ⟨?_, rfl, rfl⟩
      simp only [List.map_cons, List.sum_cons]
      ring
  obtain ⟨h1, h2, h3⟩ := key es (Game.initial : Game K)
  have hp : (mouseMoves (Game.initial : Game K) es).camera.pitch
      = 0.5 + ((es.map (fun e => if e.locked then e.movementY else 0)).sum) * 0.005 := by
    rw [h1]; rfl
  refine ⟨hp, ?_⟩
  unfold drawScene.eye
  rw [h2, h3, hp]
  rfl

/-- C7: over the reals, with yaw = 0 and pitch = 0 the look-at call of drawScene receives the
eye p + (0, 0, d), the target p and the up vector (0, 1, 0), for every player p and camera
distance d; for d = 10 and p at the origin the eye is (0, 0, 10). -/
theorem lookAt_eye_at_zero_angles (pl : Player ℝ) (input : String → Option Bool) (d : ℝ) :
    drawScene.lookAtArgs ⟨Real.sin, Real.cos, Real.pi⟩ ⟨pl, input, ⟨d, 0, 0⟩⟩
      = (⟨pl.pos.x, pl.pos.y, pl.pos.z + d⟩, pl.pos, ⟨0, 1, 0⟩) ∧
    (∀ L : Mat4Host ℝ,
      drawScene.modelViewMatrix ⟨Real.sin, Real.cos, Real.pi⟩ L ⟨pl, input, ⟨d, 0, 0⟩⟩
        = L.lookAt ⟨pl.pos.x, pl.pos.y, pl.pos.z + d⟩ pl.pos ⟨0, 1, 0⟩) ∧
    drawScene.eye ⟨Real.sin, Real.cos, Real.pi⟩
      ⟨{ pl with pos := ⟨0, 0, 0⟩ }, input, ⟨10, 0, 0⟩⟩ = ⟨0, 0, 10⟩ := by
  refine ⟨?_, ?_, ?_⟩
  · simp [drawScene.lookAtArgs, drawScene.eye]
  · intro L
    simp [drawScene.modelViewMatrix, drawScene.lookAtArgs, drawScene.eye]
  · simp [drawScene.eye]

/-! ## Normal matrix (C8) -/

theorem scale_one (a : Mat4 K) : mat4.scale a ⟨1, 1, 1⟩ = a := by
  have h : (!![(1 : K), 0, 0, 0; 0, 1, 0, 0; 0, 0, 1, 0; 0, 0, 0, 1] : Mat4 K) = 1 := by
    ext i j
    fin_cases i <;> fin_cases j <;> rfl
  simp only [mat4.scale, h, mul_one]

theorem inverse_transpose_eq_iff (A : Mat4 K) :
    mat4.transpose ((mat4.invert A).getD mat4.create) = A ↔ A.transpose * A = 1 := by
  unfold mat4.transpose mat4.invert mat4.create
  by_cases hdet : A.det = 0
  · rw [if_pos hdet]
    simp only [Option.getD_none, Matrix.transpose_one]
    constructor
    · intro h
      rw [← h, Matrix.det_one] at hdet
      exact absurd hdet one_ne_zero
    · intro h
      have hd := congrArg Matrix.det h
      rw [Matrix.det_mul, hdet, mul_zero, Matrix.det_one] at hd
      exact absurd hd zero_ne_one
  · rw [if_neg hdet]
    have hinv : A.det⁻¹ • A.adjugate = A⁻¹ := by
      rw [Matrix.inv_def, Ring.inverse_eq_inv']
    simp only [Option.getD_some, hinv]
    have hu : IsUnit A.det := isUnit_iff_ne_zero.2 hdet
    constructor
    · intro h
      have h2 : A⁻¹ = A.transpose := by
        have ht := congrArg Matrix.transpose h
        rwa [Matrix.transpose_transpose] at ht
      rw [← h2, Matrix.nonsing_inv_mul A hu]
    · intro h
      rw [Matrix.inv_eq_left_inv h, Matrix.transpose_transpose]

/-- C8, as stated, fails: with the identity as view matrix, the object at (1, 0, 0) and scale
(1, 1, 1), the normal matrix computed by drawObject differs from the model-view matrix. -/
theorem normalMatrix_ne_modelMat :
    drawObject.normalMatrix (⟨1, 0, 0⟩ : Vec3 ℚ) ⟨1, 1, 1⟩ 1
      ≠ drawObject.modelMat (⟨1, 0, 0⟩ : Vec3 ℚ) ⟨1, 1, 1⟩ 1 := by
  intro h
  have h2 := (inverse_transpose_eq_iff _).1 h
  have h3 := congrFun (congrFun h2 3) 3
  rw [drawObject.modelMat, scale_one, mat4.translate, one_mul] at h3
  rw [Matrix.mul_apply, Fin.sum_univ_four] at h3
  simp only [Matrix.transpose_apply, Matrix.of_apply, Matrix.cons_val', Matrix.cons_val_zero,
    Matrix.cons_val_one, Matrix.cons_val_two, Matrix.cons_val_three, Matrix.head_cons,
    Matrix.empty_val', Matrix.cons_val_fin_one, Matrix.one_apply_eq] at h3
  norm_num at h3

/-- C8, amended: with scale (1, 1, 1) the model-view matrix of drawObject is
translate(view, pos), and the normal matrix (the transpose of its inverse, or the identity
when it has no inverse) equals the model-view matrix if and only if the model-view matrix is
orthogonal, that is, its transpose times itself is the identity. -/
theorem normalMatrix_unit_scale (viewMat : Mat4 K) (pos : Vec3 K) :
    drawObject.modelMat pos ⟨1, 1, 1⟩ viewMat = mat4.translate viewMat pos ∧
    (drawObject.normalMatrix pos ⟨1, 1, 1⟩ viewMat = drawObject.modelMat pos ⟨1, 1, 1⟩ viewMat ↔
      (mat4.translate viewMat pos).transpose * mat4.translate viewMat pos = 1) := by
  have h : drawObject.modelMat pos ⟨1, 1, 1⟩ viewMat = mat4.translate viewMat pos := by
    rw [drawObject.modelMat, scale_one]
  refine ⟨h, ?_⟩
  rw [drawObject.normalMatrix, h]
  exact inverse_transpose_eq_iff _

/-! ## Draw order (C9) -/

/-- C9: one frame (update, then drawScene) issues exactly two indexed draw calls of 36
indices each; the model-view uniform in effect at the first is that of the floor (position
(0, 0, 0), scale (50, 0.1, 50)) and at the second that of the player (scale (0.5, 1, 0.5))
at the position produced by the update of the same frame, both under the view matrix looking
at that position. -/
theorem render_draw_order (M : JSMath K) (L : Mat4Host K) (aspect : K) (g : Game K) :
    (render M L aspect g).1 = update M g ∧
    drawCalls none (render M L aspect g).2
      = [ (some (drawObject.modelMat ⟨0, 0, 0⟩ ⟨50, 0.1, 50⟩
            (drawScene.modelViewMatrix M L (update M g))), 36),
          (some (drawObject.modelMat (update M g).player.pos ⟨0.5, 1, 0.5⟩
            (drawScene.modelViewMatrix M L (update M g))), 36) ] ∧
    (render M L aspect g).2
      = [ .clearColor 0.1 0.1 0.15 1.0, .clearDepth 1.0, .enableDepthTest, .depthFuncLEqual,
          .clearColorAndDepth ]
        ++ drawObject ⟨0, 0, 0⟩ ⟨50, 0.1, 50⟩
            (drawScene.modelViewMatrix M L (update M g)) (drawScene.projectionMatrix M L aspect)
        ++ drawObject (update M g).player.pos ⟨0.5, 1, 0.5⟩
            (drawScene.modelViewMatrix M L (update M g))
            (drawScene.projectionMatrix M L aspect) := by
  refine ⟨rfl, ?_, rfl⟩
  simp [render, drawScene, drawObject, drawCalls]

/-! ## Cube mesh (C10) -/

theorem triangles_ok : ∀ t ∈ triangles initBuffers.indices, triangleOk 4 t := by
  intro t ht
  simp only [triangles, initBuffers.indices, List.mem_cons, List.mem_singleton,
    List.not_mem_nil, or_false] at ht
  rcases ht with h | h | h | h | h | h | h | h | h | h | h | h <;> subst h <;>
    exact ⟨_, _, _, _, rfl, rfl, rfl, rfl, rfl, rfl, by decide, by decide, by decide,
      by decide, by decide⟩

/-- C10: the cube mesh of initBuffers has 72 position and 72 normal components (24 vertices),
every position coordinate is 1 or -1, there are 36 indices, all below 24, forming 12
triangles; in each triangle the three vertices carry one stored normal n, n is an
axis-aligned unit vector, every vertex satisfies n . position = 1, and the winding cross
product (v1 - v0) x (v2 - v0) is a positive multiple of n (namely 4 n). -/
theorem cube_mesh_consistent :
    initBuffers.positions.length = 72 ∧
    initBuffers.normals.length = 72 ∧
    (∀ c ∈ initBuffers.positions, c = 1 ∨ c = -1) ∧
    initBuffers.indices.length = 36 ∧
    (∀ i ∈ initBuffers.indices, i < 24) ∧
    (triangles initBuffers.indices).length = 12 ∧
    (∀ t ∈ triangles initBuffers.indices, ∃ k : ℤ, 0 < k ∧ triangleOk k t) := by
  refine ⟨by decide, by decide, by decide, by decide, by decide, by decide, ?_⟩
  intro t ht
  exact ⟨4, by decide, triangles_ok t ht⟩

end Engine
